import Mathlib

/-!
# Verification of `swayambhu/gateway_lock.py`

A shallow embedding of the gateway singleton lock: a process-wide lock
implemented by binding a TCP port on the loopback interface.

The embedding models the CPython socket layer explicitly:

* an `OSState` holds the host-wide descriptor table (every open socket and
  its binding), a fresh-descriptor counter, and the descriptor-table limit
  (`socket.socket` raises `OSError`, e.g. `EMFILE`, when the table is full);
* `socket.socket(AF_INET, SOCK_STREAM)` is `socketCreate`;
* `sock.setsockopt(SOL_SOCKET, SO_REUSEADDR, 1)` is `setReuseAddr`;
* `sock.bind(("127.0.0.1", port))` is `bindLoopback`: CPython's
  `getsockaddrarg` raises `OverflowError` when the port is outside
  `0..65535` before any syscall is made, and the kernel refuses the bind
  with `OSError` (`EADDRINUSE`) when the port is already bound — this is
  the exclusive-bind guarantee the lock relies on;
* `sock.listen(1)` is `listenSock`, `sock.close()` is `closeSock`;
* the module-global `_lock_socket` is the `lock_socket` field of
  `ProcState`.

`acquire_gateway_lock` and `release_gateway_lock` are line-for-line
translations of the Python functions over this model.  Python exceptions
are the `Except PyErr` result: `acquire` catches only `OSError` raised
inside its `try:` block (`bind`/`listen`); anything else propagates.
-/

namespace Swayambhu

/-- Python exception classes that the socket layer can raise here. -/
inductive PyErr where
  /-- `OSError`: bind refused (`EADDRINUSE`, `EACCES`, ...) or descriptor
  table full (`EMFILE`). -/
  | osError : PyErr
  /-- `OverflowError`: raised by CPython's `getsockaddrarg` when a port is
  outside `0..65535`. -/
  | overflowError : PyErr
  deriving DecidableEq, Repr

/-- OS socket descriptor. -/
abbrev FD := Nat

/-- Per-socket kernel state: whether `SO_REUSEADDR` is set, the address and
port the socket is bound to (if any), and the listen backlog (if
listening). -/
structure SockInfo where
  reuseaddr : Bool := false
  bound : Option (String × Nat) := none
  backlog : Option Nat := none
  deriving DecidableEq, Repr

/-- Host-wide OS state: the open-socket table (descriptor, kernel state),
the next fresh descriptor, and the descriptor-table capacity. -/
structure OSState where
  maxFDs : Nat
  nextFD : FD
  sockets : List (FD × SockInfo)
  deriving DecidableEq, Repr

/-- The ports currently bound by some open socket on the host. -/
def OSState.boundPorts (os : OSState) : List Nat :=
  os.sockets.filterMap (fun p => p.2.bound.map (fun ap => ap.2))

/-- A well-formed descriptor table: every open descriptor is below the
fresh-descriptor counter, and descriptors are pairwise distinct. -/
def OSState.WF (os : OSState) : Prop :=
  (∀ p ∈ os.sockets, p.1 < os.nextFD) ∧ (os.sockets.map (fun p => p.1)).Nodup

instance (os : OSState) : Decidable os.WF := by
  unfold OSState.WF; infer_instance

/-- `socket.socket(AF_INET, SOCK_STREAM)`: allocates a fresh descriptor,
or raises `OSError` when the descriptor table is full. -/
def socketCreate (os : OSState) : Except PyErr (FD × OSState) :=
  if os.sockets.length < os.maxFDs then
    .ok (os.nextFD,
      { os with nextFD := os.nextFD + 1,
                sockets := (os.nextFD, {}) :: os.sockets })
  else .error .osError

/-- `sock.setsockopt(SOL_SOCKET, SO_REUSEADDR, 1)`. -/
def setReuseAddr (os : OSState) (fd : FD) : OSState :=
  { os with sockets := os.sockets.map (fun p =>
      if p.1 = fd then (p.1, { p.2 with reuseaddr := true }) else p) }

/-- `sock.bind(("127.0.0.1", port))`: `OverflowError` for an out-of-range
port (CPython checks before the syscall); `OSError` when the port is
already bound on the host (the kernel's exclusive-bind guarantee);
otherwise records the binding. -/
def bindLoopback (os : OSState) (fd : FD) (port : Int) : Except PyErr OSState :=
  if port < 0 ∨ 65535 < port then .error .overflowError
  else if port.toNat ∈ os.boundPorts then .error .osError
  else .ok { os with sockets := os.sockets.map (fun p =>
      if p.1 = fd then (p.1, { p.2 with bound := some ("127.0.0.1", port.toNat) }) else p) }

/-- `sock.listen(backlog)` on a bound socket. -/
def listenSock (os : OSState) (fd : FD) (backlog : Nat) : OSState :=
  { os with sockets := os.sockets.map (fun p =>
      if p.1 = fd then (p.1, { p.2 with backlog := some backlog }) else p) }

/-- `sock.close()`: removes the descriptor from the table (releasing any
binding it held); never raises. -/
def closeSock (os : OSState) (fd : FD) : OSState :=
  { os with sockets := os.sockets.filter (fun p => p.1 ≠ fd) }

/-- The module-global `_lock_socket: socket.socket | None`. -/
structure ProcState where
  lock_socket : Option FD
  deriving DecidableEq, Repr

/-- `acquire_gateway_lock(port)` from `gateway_lock.py`:

```python
def acquire_gateway_lock(port: int) -> bool:
    global _lock_socket
    sock = socket.socket(socket.AF_INET, socket.SOCK_STREAM)
    sock.setsockopt(socket.SOL_SOCKET, socket.SO_REUSEADDR, 1)
    try:
        sock.bind(("127.0.0.1", port))
        sock.listen(1)
        _lock_socket = sock
        return True
    except OSError:
        sock.close()
        return False
```

The result is the returned/raised outcome together with the final
process-wide and OS states.  Note `socket.socket` and `setsockopt` run
outside the `try:`, and the `except` clause catches `OSError` only, so an
`OverflowError` from `bind` propagates. -/
def acquire_gateway_lock (port : Int) (ps : ProcState) (os : OSState) :
    Except PyErr Bool × ProcState × OSState :=
  match socketCreate os with
  | .error e => (.error e, ps, os)
  | .ok (sock, os1) =>
    let os2 := setReuseAddr os1 sock
    match bindLoopback os2 sock port with
    | .ok os3 => (.ok true, { lock_socket := some sock }, listenSock os3 sock 1)
    | .error .osError => (.ok false, ps, closeSock os2 sock)
    | .error e => (.error e, ps, os2)

/-- `release_gateway_lock()` from `gateway_lock.py`:

```python
def release_gateway_lock() -> None:
    global _lock_socket
    if _lock_socket is not None:
        _lock_socket.close()
        _lock_socket = None
```

Total (never raises): `close` is modelled as always succeeding, matching
the spec's abstraction level. -/
def release_gateway_lock (ps : ProcState) (os : OSState) : ProcState × OSState :=
  match ps.lock_socket with
  | some fd => ({ lock_socket := none }, closeSock os fd)
  | none => (ps, os)

/-- A fresh host state used to instantiate theorems on concrete inputs:
empty descriptor table with room for 16 descriptors. -/
def freshOS : OSState := ⟨16, 0, []⟩

/-- A host state in which descriptor 0 already holds the exclusive bind to
`127.0.0.1:48900` (as left behind by a successful acquire). -/
def boundOS : OSState :=
  ⟨16, 1,
    [(0, { reuseaddr := true, bound := some ("127.0.0.1", 48900),
           backlog := some 1 })]⟩

/-- The process-wide lock invariant of the spec's data model: the state
holds at most one Lock Handle (enforced by the `Option` in `ProcState`),
and a held handle is an open socket in the host descriptor table,
exclusively bound to `127.0.0.1` on its port (no other open socket holds
the same binding), in listening state with backlog 1. -/
def LockInv (ps : ProcState) (os : OSState) : Prop :=
  ∀ fd, ps.lock_socket = some fd →
    ∃ si, (fd, si) ∈ os.sockets ∧
      ∃ port, si.bound = some ("127.0.0.1", port) ∧ si.backlog = some 1 ∧
        ∀ q ∈ os.sockets, q.1 ≠ fd → q.2.bound ≠ some ("127.0.0.1", port)

/-! ## Small-step decomposition of `acquire_gateway_lock`

To reason about two processes calling `acquire` at overlapping times, the
function is decomposed into its primitive syscalls, each of which the
kernel executes atomically.  `stepAcq` performs one syscall of one
process against the shared host state; `runTwo` interleaves two processes
under an arbitrary schedule.  `stepAcq_refines` (below) proves that
running one process alone agrees with `acquire_gateway_lock`. -/

instance : DecidableEq (Except PyErr Bool) := fun a b =>
  match a, b with
  | .error e, .error f => decidable_of_iff (e = f) (by simp)
  | .ok x, .ok y => decidable_of_iff (x = y) (by simp)
  | .error _, .ok _ => isFalse (by simp)
  | .ok _, .error _ => isFalse (by simp)

/-- Program counter of one process executing `acquire_gateway_lock(port)`,
between its primitive syscalls: not started; after `socket.socket`; after
`setsockopt`; after a successful `bind`; after `bind` raised `OSError`;
after `listen`; returned/raised (with the returned outcome and the value
stored into `_lock_socket`, if any). -/
inductive APC where
  | start : APC
  | created (fd : FD) : APC
  | optset (fd : FD) : APC
  | bound (fd : FD) : APC
  | bindFailed (fd : FD) : APC
  | listening (fd : FD) : APC
  | done (r : Except PyErr Bool) (lock : Option FD) : APC
  deriving DecidableEq, Repr

/-- One primitive step of `acquire_gateway_lock(port)` against the shared
host state; `done` is absorbing.  The transitions follow the Python
function in program order: create, set `SO_REUSEADDR`, bind (three
outcomes), listen, store-and-return-True; after a failed bind, close and
return False. -/
def stepAcq (port : Int) (os : OSState) (pc : APC) : OSState × APC :=
  match pc with
  | .start =>
    match socketCreate os with
    | .ok (fd, os') => (os', .created fd)
    | .error e => (os, .done (.error e) none)
  | .created fd => (setReuseAddr os fd, .optset fd)
  | .optset fd =>
    match bindLoopback os fd port with
    | .ok os' => (os', .bound fd)
    | .error .osError => (os, .bindFailed fd)
    | .error e => (os, .done (.error e) none)
  | .bound fd => (listenSock os fd 1, .listening fd)
  | .listening fd => (os, .done (.ok true) (some fd))
  | .bindFailed fd => (closeSock os fd, .done (.ok false) none)
  | .done r l => (os, .done r l)

/-- `n` consecutive steps of a single process. -/
def stepN (port : Int) : Nat → OSState × APC → OSState × APC
  | 0, s => s
  | n + 1, s => stepN port n (stepAcq port s.1 s.2)

/-- Interleaved execution of two processes that both run
`acquire_gateway_lock(port)` against the shared host state: the schedule
names the process performing the next primitive step (`true` = first
process). -/
def runTwo (port : Int) : List Bool → OSState × APC × APC → OSState × APC × APC
  | [], s => s
  | b :: rest, (os, pa, pb) =>
    match b with
    | true => runTwo port rest ((stepAcq port os pa).1, (stepAcq port os pa).2, pb)
    | false => runTwo port rest ((stepAcq port os pb).1, pa, (stepAcq port os pb).2)

/-- The socket a process owns at a given program counter, with the exact
kernel state it has at that point (`P` is the port being acquired). -/
def ownSock (P : Nat) : APC → List (FD × SockInfo)
  | .start => []
  | .created fd => [(fd, {})]
  | .optset fd => [(fd, { reuseaddr := true })]
  | .bindFailed fd => [(fd, { reuseaddr := true })]
  | .bound fd =>
    [(fd, { reuseaddr := true, bound := some ("127.0.0.1", P) })]
  | .listening fd =>
    [(fd, { reuseaddr := true, bound := some ("127.0.0.1", P),
            backlog := some 1 })]
  | .done _ l =>
    match l with
    | some fd =>
      [(fd, { reuseaddr := true, bound := some ("127.0.0.1", P),
              backlog := some 1 })]
    | none => []

/-- A process that holds (or will return with) the successful bind. -/
def wonState : APC → Prop
  | .bound _ => True
  | .listening _ => True
  | .done (.ok true) (some _) => True
  | _ => False

/-- A process whose bind failed (it will return, or returned, False). -/
def failState : APC → Prop
  | .bindFailed _ => True
  | .done (.ok false) none => True
  | _ => False

/-- Completed states have one of the two normal shapes: returned True
holding a socket, or returned False holding none.  (Under the premises of
the mutual-exclusion theorem, error outcomes are unreachable.) -/
def doneShape : APC → Prop
  | .done (.ok true) (some _) => True
  | .done (.ok false) none => True
  | .done _ _ => False
  | _ => True

/-- The ports bound by the sockets of a table fragment. -/
def portsOf (l : List (FD × SockInfo)) : List Nat :=
  l.filterMap (fun p => p.2.bound.map (fun ap => ap.2))

/-- Invariant of the interleaved two-process execution, relative to the
initial host state `os0` and the acquired port `P`: the table limit and
the initial descriptors are untouched, the fresh counter only grows, the
table stays well-formed and consists (up to order) of each process's own
socket plus the initial sockets, completed processes have a normal shape,
at most one process holds the bind, and a process fails only when the
other holds the bind. -/
structure TwoInv (P : Nat) (os0 : OSState) (os : OSState) (pa pb : APC) : Prop where
  maxEq : os.maxFDs = os0.maxFDs
  nextLe : os0.nextFD ≤ os.nextFD
  wf : os.WF
  perm : os.sockets.Perm (ownSock P pa ++ ownSock P pb ++ os0.sockets)
  shapeA : doneShape pa
  shapeB : doneShape pb
  wonU : wonState pa → wonState pb → False
  failA : failState pa → wonState pb
  failB : failState pb → wonState pa

/-! ## Helper lemmas about the socket-table operations -/

/-- An in-place per-descriptor update leaves a table untouched when the
descriptor is absent. -/
theorem map_upd_id (fd : FD) (f : SockInfo → SockInfo) (l : List (FD × SockInfo))
    (h : ∀ p ∈ l, p.1 ≠ fd) :
    l.map (fun p => if p.1 = fd then (p.1, f p.2) else p) = l := by
  induction l with
  | nil => rfl
  | cons a t ih =>
    have ha : a.1 ≠ fd := h a (List.mem_cons_self a t)
    simp only [List.map_cons, if_neg ha]
    rw [ih (fun p hp => h p (List.mem_cons_of_mem a hp))]

/-- An in-place per-descriptor update on a table headed by that descriptor
rewrites the head and leaves a fresh tail untouched. -/
theorem map_upd_head (fd : FD) (si : SockInfo) (f : SockInfo → SockInfo)
    (l : List (FD × SockInfo)) (h : ∀ p ∈ l, p.1 ≠ fd) :
    ((fd, si) :: l).map (fun p => if p.1 = fd then (p.1, f p.2) else p)
      = (fd, f si) :: l := by
  simp only [List.map_cons, if_pos rfl, if_true]
  rw [map_upd_id fd f l h]

/-- Removing an absent descriptor leaves a table untouched. -/
theorem filter_ne_id (fd : FD) (l : List (FD × SockInfo))
    (h : ∀ p ∈ l, p.1 ≠ fd) :
    l.filter (fun p => p.1 ≠ fd) = l :=
  List.filter_eq_self.mpr (fun a ha => by simpa using h a ha)

theorem boundPorts_mk (m n : Nat) (l : List (FD × SockInfo)) :
    OSState.boundPorts ⟨m, n, l⟩
      = l.filterMap (fun p => p.2.bound.map (fun ap => ap.2)) := rfl

/-- A descriptor below the fresh counter of a well-formed table is fresh. -/
theorem WF.fresh {os : OSState} (hwf : os.WF) :
    ∀ p ∈ os.sockets, p.1 ≠ os.nextFD :=
  fun p hp => Nat.ne_of_lt (hwf.1 p hp)

/-! ## Path equations for `acquire_gateway_lock` -/

/-- Success path: on a well-formed state with descriptor-table room, an
in-range free port binds; the new socket has `SO_REUSEADDR` set, is bound
to `127.0.0.1:port`, listens with backlog 1, is stored in `_lock_socket`,
and `True` is returned. -/
theorem acquire_free_eq (port : Int) (ps : ProcState) (os : OSState)
    (h0 : 0 ≤ port) (h1 : port ≤ 65535)
    (hfree : port.toNat ∉ os.boundPorts)
    (hfd : os.sockets.length < os.maxFDs)
    (hwf : os.WF) :
    acquire_gateway_lock port ps os =
      (.ok true, ⟨some os.nextFD⟩,
        ⟨os.maxFDs, os.nextFD + 1,
          (os.nextFD,
            { reuseaddr := true, bound := some ("127.0.0.1", port.toNat),
              backlog := some 1 }) :: os.sockets⟩) := by
  have hfresh := WF.fresh hwf
  have hc : socketCreate os
      = .ok (os.nextFD, ⟨os.maxFDs, os.nextFD + 1, (os.nextFD, {}) :: os.sockets⟩) := by
    unfold socketCreate; rw [if_pos hfd]
  have hs : setReuseAddr ⟨os.maxFDs, os.nextFD + 1, (os.nextFD, {}) :: os.sockets⟩ os.nextFD
      = ⟨os.maxFDs, os.nextFD + 1,
          (os.nextFD, { reuseaddr := true }) :: os.sockets⟩ := by
    simp only [setReuseAddr]
    rw [map_upd_head os.nextFD {} (fun si => { si with reuseaddr := true }) os.sockets hfresh]
  have hrange : ¬(port < 0 ∨ 65535 < port) := by omega
  have hports : OSState.boundPorts
      ⟨os.maxFDs, os.nextFD + 1, (os.nextFD, { reuseaddr := true }) :: os.sockets⟩
      = os.boundPorts := by
    rw [boundPorts_mk, List.filterMap_cons]
    rfl
  have hb : bindLoopback
      ⟨os.maxFDs, os.nextFD + 1, (os.nextFD, { reuseaddr := true }) :: os.sockets⟩
      os.nextFD port
      = .ok ⟨os.maxFDs, os.nextFD + 1,
          (os.nextFD,
            { reuseaddr := true, bound := some ("127.0.0.1", port.toNat) })
            :: os.sockets⟩ := by
    simp only [bindLoopback, if_neg hrange, hports, if_neg hfree]
    rw [map_upd_head os.nextFD { reuseaddr := true }
      (fun si => { si with bound := some ("127.0.0.1", port.toNat) }) os.sockets hfresh]
  have hl : listenSock
      ⟨os.maxFDs, os.nextFD + 1,
        (os.nextFD,
          { reuseaddr := true, bound := some ("127.0.0.1", port.toNat) })
          :: os.sockets⟩ os.nextFD 1
      = ⟨os.maxFDs, os.nextFD + 1,
          (os.nextFD,
            { reuseaddr := true, bound := some ("127.0.0.1", port.toNat),
              backlog := some 1 }) :: os.sockets⟩ := by
    simp only [listenSock]
    rw [map_upd_head os.nextFD
      { reuseaddr := true, bound := some ("127.0.0.1", port.toNat) }
      (fun si => { si with backlog := some 1 }) os.sockets hfresh]
  unfold acquire_gateway_lock
  rw [hc]
  simp only [hs, hb, hl]

/-- Bind-failure path: on a well-formed state with descriptor-table room,
acquiring an in-range port that is already bound creates a socket, fails
the bind with `OSError`, closes the socket (restoring the descriptor
table), leaves `_lock_socket` untouched, and returns `False`. -/
theorem acquire_busy_eq (port : Int) (ps : ProcState) (os : OSState)
    (h0 : 0 ≤ port) (h1 : port ≤ 65535)
    (hbusy : port.toNat ∈ os.boundPorts)
    (hfd : os.sockets.length < os.maxFDs)
    (hwf : os.WF) :
    acquire_gateway_lock port ps os =
      (.ok false, ps, ⟨os.maxFDs, os.nextFD + 1, os.sockets⟩) := by
  have hfresh := WF.fresh hwf
  have hc : socketCreate os
      = .ok (os.nextFD, ⟨os.maxFDs, os.nextFD + 1, (os.nextFD, {}) :: os.sockets⟩) := by
    unfold socketCreate; rw [if_pos hfd]
  have hs : setReuseAddr ⟨os.maxFDs, os.nextFD + 1, (os.nextFD, {}) :: os.sockets⟩ os.nextFD
      = ⟨os.maxFDs, os.nextFD + 1,
          (os.nextFD, { reuseaddr := true }) :: os.sockets⟩ := by
    simp only [setReuseAddr]
    rw [map_upd_head os.nextFD {} (fun si => { si with reuseaddr := true }) os.sockets hfresh]
  have hrange : ¬(port < 0 ∨ 65535 < port) := by omega
  have hports : OSState.boundPorts
      ⟨os.maxFDs, os.nextFD + 1, (os.nextFD, { reuseaddr := true }) :: os.sockets⟩
      = os.boundPorts := by
    rw [boundPorts_mk, List.filterMap_cons]
    rfl
  have hb : bindLoopback
      ⟨os.maxFDs, os.nextFD + 1, (os.nextFD, { reuseaddr := true }) :: os.sockets⟩
      os.nextFD port
      = .error .osError := by
    simp only [bindLoopback, if_neg hrange, hports, if_pos hbusy]
  have hcl : closeSock
      ⟨os.maxFDs, os.nextFD + 1, (os.nextFD, { reuseaddr := true }) :: os.sockets⟩
      os.nextFD
      = ⟨os.maxFDs, os.nextFD + 1, os.sockets⟩ := by
    simp only [closeSock, List.filter_cons]
    have : ¬(os.nextFD ≠ os.nextFD) := fun h => h rfl
    simp only [decide_eq_true_eq]
    rw [if_neg this, filter_ne_id os.nextFD os.sockets hfresh]
  unfold acquire_gateway_lock
  rw [hc]
  simp only [hs, hb, hcl]

/-- Descriptor-table-full path: `socket.socket` raises `OSError` outside
the `try:` block, so it propagates and no state changes. -/
theorem acquire_nofd_eq (port : Int) (ps : ProcState) (os : OSState)
    (hfd : ¬ os.sockets.length < os.maxFDs) :
    acquire_gateway_lock port ps os = (.error .osError, ps, os) := by
  unfold acquire_gateway_lock socketCreate
  rw [if_neg hfd]

/-- Out-of-range-port path: `bind` raises `OverflowError` inside the
`try:` block, but only `OSError` is caught, so it propagates; the created
socket is not closed. -/
theorem acquire_overflow_eq (port : Int) (ps : ProcState) (os : OSState)
    (hr : port < 0 ∨ 65535 < port)
    (hfd : os.sockets.length < os.maxFDs)
    (hwf : os.WF) :
    acquire_gateway_lock port ps os =
      (.error .overflowError, ps,
        ⟨os.maxFDs, os.nextFD + 1,
          (os.nextFD, { reuseaddr := true }) :: os.sockets⟩) := by
  have hfresh := WF.fresh hwf
  have hc : socketCreate os
      = .ok (os.nextFD, ⟨os.maxFDs, os.nextFD + 1, (os.nextFD, {}) :: os.sockets⟩) := by
    unfold socketCreate; rw [if_pos hfd]
  have hs : setReuseAddr ⟨os.maxFDs, os.nextFD + 1, (os.nextFD, {}) :: os.sockets⟩ os.nextFD
      = ⟨os.maxFDs, os.nextFD + 1,
          (os.nextFD, { reuseaddr := true }) :: os.sockets⟩ := by
    simp only [setReuseAddr]
    rw [map_upd_head os.nextFD {} (fun si => { si with reuseaddr := true }) os.sockets hfresh]
  have hb : bindLoopback
      ⟨os.maxFDs, os.nextFD + 1, (os.nextFD, { reuseaddr := true }) :: os.sockets⟩
      os.nextFD port
      = .error .overflowError := by
    simp only [bindLoopback, if_pos hr]
  unfold acquire_gateway_lock
  rw [hc]
  simp only [hs, hb]

/-- A result of `True` can only come from the success path: the port was
in range and free and the descriptor table had room. -/
theorem acquire_true_elim (port : Int) (ps : ProcState) (os : OSState)
    (hwf : os.WF)
    (h : (acquire_gateway_lock port ps os).1 = .ok true) :
    0 ≤ port ∧ port ≤ 65535 ∧ port.toNat ∉ os.boundPorts ∧
      os.sockets.length < os.maxFDs := by
  by_cases hfd : os.sockets.length < os.maxFDs
  · by_cases hr : port < 0 ∨ 65535 < port
    · rw [acquire_overflow_eq port ps os hr hfd hwf] at h
      exact absurd h (by simp)
    · push_neg at hr
      by_cases hb : port.toNat ∈ os.boundPorts
      · rw [acquire_busy_eq port ps os hr.1 hr.2 hb hfd hwf] at h
        exact absurd h (by simp)
      · exact ⟨hr.1, hr.2, hb, hfd⟩
  · rw [acquire_nofd_eq port ps os hfd] at h
    exact absurd h (by simp)

/-- The host-wide bound ports after a successful acquire are the old ones
plus the acquired port. -/
theorem boundPorts_after_success (os : OSState) (port : Nat) :
    OSState.boundPorts ⟨os.maxFDs, os.nextFD + 1,
      (os.nextFD,
        { reuseaddr := true, bound := some ("127.0.0.1", port),
          backlog := some 1 }) :: os.sockets⟩
      = port :: os.boundPorts := by
  rw [boundPorts_mk, List.filterMap_cons]
  rfl

/-- A socket bound to a port puts that port in the host-wide bound set. -/
theorem mem_boundPorts (os : OSState) (q : FD × SockInfo) (a : String) (p : Nat)
    (hq : q ∈ os.sockets) (hb : q.2.bound = some (a, p)) : p ∈ os.boundPorts := by
  simp only [OSState.boundPorts]
  exact List.mem_filterMap.mpr ⟨q, hq, by rw [hb]; rfl⟩

/-- Appending a fresh socket to a well-formed table keeps it well-formed. -/
theorem WF_cons_fresh (os : OSState) (hwf : os.WF) (si : SockInfo) :
    (OSState.mk os.maxFDs (os.nextFD + 1) ((os.nextFD, si) :: os.sockets)).WF := by
  constructor
  · intro p hp
    rcases List.mem_cons.mp hp with h | h
    · subst h; exact Nat.lt_succ_self _
    · exact Nat.lt_trans (hwf.1 p h) (Nat.lt_succ_self _)
  · simp only [List.map_cons, List.nodup_cons]
    refine ⟨?_, hwf.2⟩
    intro hmem
    rcases List.mem_map.mp hmem with ⟨p, hp, hfst⟩
    have h1 := hwf.1 p hp
    have h2 : p.1 = os.nextFD := hfst
    rw [h2] at h1
    exact lt_irrefl _ h1

/-- Bumping the fresh-descriptor counter keeps a table well-formed. -/
theorem WF_bump (os : OSState) (hwf : os.WF) :
    (OSState.mk os.maxFDs (os.nextFD + 1) os.sockets).WF :=
  ⟨fun p hp => Nat.lt_trans (hwf.1 p hp) (Nat.lt_succ_self _), hwf.2⟩

/-- For an in-range port, `bind` either succeeds or raises `OSError`
(never `OverflowError`). -/
theorem bindLoopback_in_range (os : OSState) (fd : FD) (port : Int)
    (h0 : 0 ≤ port) (h1 : port ≤ 65535) :
    (∃ os', bindLoopback os fd port = .ok os') ∨
      bindLoopback os fd port = .error .osError := by
  unfold bindLoopback
  rw [if_neg (by omega : ¬(port < 0 ∨ 65535 < port))]
  by_cases hb : port.toNat ∈ os.boundPorts
  · right; rw [if_pos hb]
  · left; rw [if_neg hb]; exact ⟨_, rfl⟩

/-- Result-only form of the out-of-range path (no well-formedness
needed): the `OverflowError` from `bind` propagates. -/
theorem acquire_fst_out_of_range (port : Int) (ps : ProcState) (os : OSState)
    (hr : port < 0 ∨ 65535 < port)
    (hfd : os.sockets.length < os.maxFDs) :
    (acquire_gateway_lock port ps os).1 = .error .overflowError := by
  unfold acquire_gateway_lock socketCreate
  rw [if_pos hfd]
  simp only [bindLoopback, if_pos hr]

/-- Closing a descriptor keeps the table well-formed. -/
theorem WF_close (os : OSState) (fd : FD) (hwf : os.WF) : (closeSock os fd).WF := by
  constructor
  · intro p hp
    simp only [closeSock] at hp
    exact hwf.1 p (List.mem_of_mem_filter hp)
  · simp only [closeSock]
    exact List.Nodup.sublist (List.Sublist.map _ (List.filter_sublist _)) hwf.2

/-- Serialized pair of acquires of the same free port: the first bind
claims the port, so the second call returns `False`. -/
theorem acquire_then_busy (port : Int) (ps1 ps2 : ProcState) (os : OSState)
    (h0 : 0 ≤ port) (h1 : port ≤ 65535)
    (hfree : port.toNat ∉ os.boundPorts)
    (hfd : os.sockets.length + 2 ≤ os.maxFDs)
    (hwf : os.WF) :
    (acquire_gateway_lock port ps1 os).1 = .ok true ∧
    (acquire_gateway_lock port ps2 (acquire_gateway_lock port ps1 os).2.2).1
      = .ok false := by
  have hfd1 : os.sockets.length < os.maxFDs := by omega
  have heq := acquire_free_eq port ps1 os h0 h1 hfree hfd1 hwf
  refine ⟨by rw [heq], ?_⟩
  rw [heq]
  have hbusy : port.toNat ∈ OSState.boundPorts ⟨os.maxFDs, os.nextFD + 1,
      (os.nextFD,
        { reuseaddr := true, bound := some ("127.0.0.1", port.toNat),
          backlog := some 1 }) :: os.sockets⟩ := by
    rw [boundPorts_after_success]
    exact List.mem_cons_self _ _
  have hfd2 : ((os.nextFD,
      ({ reuseaddr := true, bound := some ("127.0.0.1", port.toNat),
         backlog := some 1 } : SockInfo)) :: os.sockets).length < os.maxFDs := by
    rw [List.length_cons]; omega
  have hwf2 : (OSState.mk os.maxFDs (os.nextFD + 1)
      ((os.nextFD,
        { reuseaddr := true, bound := some ("127.0.0.1", port.toNat),
          backlog := some 1 }) :: os.sockets)).WF :=
    WF_cons_fresh os hwf _
  rw [acquire_busy_eq port ps2
    ⟨os.maxFDs, os.nextFD + 1,
      (os.nextFD,
        { reuseaddr := true, bound := some ("127.0.0.1", port.toNat),
          backlog := some 1 }) :: os.sockets⟩
    h0 h1 hbusy hfd2 hwf2]

/-! ## The step machine refines `acquire_gateway_lock` -/

theorem stepN_zero (port : Int) (s : OSState × APC) : stepN port 0 s = s := rfl

theorem stepN_succ (port : Int) (n : Nat) (s : OSState × APC) :
    stepN port (n + 1) s = stepN port n (stepAcq port s.1 s.2) := rfl

/-- Running one process alone for six primitive steps agrees with the
sequential `acquire_gateway_lock`: same final host state, same outcome,
and the `done` lock value describes the update of `_lock_socket`. -/
theorem stepAcq_refines (port : Int) (ps : ProcState) (os : OSState) :
    ∃ l : Option FD,
      stepN port 6 (os, .start)
        = ((acquire_gateway_lock port ps os).2.2,
            .done (acquire_gateway_lock port ps os).1 l) ∧
      (acquire_gateway_lock port ps os).2.1
        = (match l with | some fd => ⟨some fd⟩ | none => ps) := by
  cases hc : socketCreate os with
  | error e =>
    have ha : acquire_gateway_lock port ps os = (.error e, ps, os) := by
      unfold acquire_gateway_lock; rw [hc]
    refine ⟨none, ?_, ?_⟩
    · rw [ha]
      simp only [stepN_succ, stepN_zero, stepAcq, hc]
    · rw [ha]
  | ok v =>
    obtain ⟨sock, os1⟩ := v
    cases hb : bindLoopback (setReuseAddr os1 sock) sock port with
    | ok os3 =>
      have ha : acquire_gateway_lock port ps os
          = (.ok true, ⟨some sock⟩, listenSock os3 sock 1) := by
        unfold acquire_gateway_lock; rw [hc]; simp only [hb]
      refine ⟨some sock, ?_, ?_⟩
      · rw [ha]
        simp only [stepN_succ, stepN_zero, stepAcq, hc, hb]
      · rw [ha]
    | error e =>
      cases e with
      | osError =>
        have ha : acquire_gateway_lock port ps os
            = (.ok false, ps, closeSock (setReuseAddr os1 sock) sock) := by
          unfold acquire_gateway_lock; rw [hc]; simp only [hb]
        refine ⟨none, ?_, ?_⟩
        · rw [ha]
          simp only [stepN_succ, stepN_zero, stepAcq, hc, hb]
        · rw [ha]
      | overflowError =>
        have ha : acquire_gateway_lock port ps os
            = (.error .overflowError, ps, setReuseAddr os1 sock) := by
          unfold acquire_gateway_lock; rw [hc]; simp only [hb]
        refine ⟨none, ?_, ?_⟩
        · rw [ha]
          simp only [stepN_succ, stepN_zero, stepAcq, hc, hb]
        · rw [ha]

/-! ## Permutation and table lemmas for the interleaved execution -/

theorem ownSock_length_le (P : Nat) (pc : APC) : (ownSock P pc).length ≤ 1 := by
  cases pc with
  | start => simp [ownSock]
  | created fd => simp [ownSock]
  | optset fd => simp [ownSock]
  | bound fd => simp [ownSock]
  | bindFailed fd => simp [ownSock]
  | listening fd => simp [ownSock]
  | done r l => cases l <;> simp [ownSock]

/-- A per-descriptor in-place update does not change the keys of the
table. -/
theorem map_upd_keys (fd : FD) (f : SockInfo → SockInfo) (l : List (FD × SockInfo)) :
    (l.map (fun p => if p.1 = fd then (p.1, f p.2) else p)).map (fun p => p.1)
      = l.map (fun p => p.1) := by
  induction l with
  | nil => rfl
  | cons a t ih =>
    by_cases h : a.1 = fd <;> simp [h, ih]

/-- A per-descriptor in-place update keeps the table well-formed. -/
theorem WF_map_upd (os : OSState) (fd : FD) (f : SockInfo → SockInfo) (hwf : os.WF) :
    (OSState.mk os.maxFDs os.nextFD
      (os.sockets.map (fun p => if p.1 = fd then (p.1, f p.2) else p))).WF := by
  constructor
  · intro p hp
    rcases List.mem_map.mp hp with ⟨q, hq, hpq⟩
    have h1 := hwf.1 q hq
    subst hpq
    by_cases h : q.1 = fd
    · simpa [h] using h1
    · simpa [h] using h1
  · rw [map_upd_keys]
    exact hwf.2

/-- If a table with pairwise-distinct keys is a permutation of
`(fd, si) :: rest`, then `fd` does not occur as a key in `rest`. -/
theorem keys_fresh_of_perm (fd : FD) (si : SockInfo) (l rest : List (FD × SockInfo))
    (hperm : l.Perm ((fd, si) :: rest))
    (hnodup : (l.map (fun p => p.1)).Nodup) :
    ∀ p ∈ rest, p.1 ≠ fd := by
  have h2 : (((fd, si) :: rest).map (fun p => p.1)).Nodup :=
    ((hperm.map (fun p => p.1)).nodup_iff).mp hnodup
  simp only [List.map_cons, List.nodup_cons] at h2
  intro p hp heq
  exact h2.1 (List.mem_map.mpr ⟨p, hp, heq⟩)

/-- An in-place update of the socket owned by one process, through a
permutation view of the table. -/
theorem map_upd_perm (fd : FD) (si : SockInfo) (f : SockInfo → SockInfo)
    (l rest : List (FD × SockInfo))
    (hperm : l.Perm ((fd, si) :: rest))
    (hnodup : (l.map (fun p => p.1)).Nodup) :
    (l.map (fun p => if p.1 = fd then (p.1, f p.2) else p)).Perm
      ((fd, f si) :: rest) := by
  have h3 := keys_fresh_of_perm fd si l rest hperm hnodup
  have h4 := hperm.map (fun p => if p.1 = fd then (p.1, f p.2) else p)
  rw [map_upd_head fd si f rest h3] at h4
  exact h4

/-- Closing the socket owned by one process removes exactly it, through a
permutation view of the table. -/
theorem close_perm (fd : FD) (si : SockInfo) (l rest : List (FD × SockInfo))
    (hperm : l.Perm ((fd, si) :: rest))
    (hnodup : (l.map (fun p => p.1)).Nodup) :
    (l.filter (fun p => p.1 ≠ fd)).Perm rest := by
  have h3 := keys_fresh_of_perm fd si l rest hperm hnodup
  have h4 := hperm.filter (fun p => p.1 ≠ fd)
  have h5 : ((fd, si) :: rest).filter (fun p => p.1 ≠ fd) = rest := by
    rw [List.filter_cons]
    have hd : ¬((fd, si).1 ≠ fd) := fun h => h rfl
    simp only [decide_eq_true_eq]
    rw [if_neg hd, filter_ne_id fd rest h3]
  rw [h5] at h4
  exact h4

theorem perm_swap_mid (a b c : List (FD × SockInfo)) :
    (a ++ b ++ c).Perm (b ++ a ++ c) :=
  List.perm_append_comm.append_right c

/-- The acquired port occurs among a process's own bound ports exactly
when that process holds the bind. -/
theorem mem_portsOf_ownSock (P : Nat) (pc : APC) (hs : doneShape pc) :
    P ∈ portsOf (ownSock P pc) ↔ wonState pc := by
  cases pc with
  | start => simp [ownSock, portsOf, wonState]
  | created fd => simp [ownSock, portsOf, wonState]
  | optset fd => simp [ownSock, portsOf, wonState]
  | bindFailed fd => simp [ownSock, portsOf, wonState]
  | bound fd => simp [ownSock, portsOf, wonState]
  | listening fd => simp [ownSock, portsOf, wonState]
  | done r l =>
    rcases r with e | x
    · exact absurd hs (by cases l <;> simp [doneShape])
    · rcases x with _ | _
      · rcases l with _ | fd
        · simp [ownSock, portsOf, wonState]
        · exact absurd hs (by simp [doneShape])
      · rcases l with _ | fd
        · exact absurd hs (by simp [doneShape])
        · simp [ownSock, portsOf, wonState]

/-- Under the invariant, the acquired port is bound on the host exactly
when one of the two processes holds the bind. -/
theorem twoInv_mem_iff_won (P : Nat) (os0 os : OSState) (pa pb : APC)
    (hfree : P ∉ os0.boundPorts)
    (hinv : TwoInv P os0 os pa pb) :
    (P ∈ os.boundPorts ↔ wonState pa ∨ wonState pb) := by
  have hp : os.boundPorts.Perm
      (portsOf (ownSock P pa) ++ portsOf (ownSock P pb) ++ portsOf os0.sockets) := by
    have hq := hinv.perm.filterMap (fun p => p.2.bound.map (fun ap => ap.2))
    rwa [List.filterMap_append, List.filterMap_append] at hq
  rw [hp.mem_iff, List.mem_append, List.mem_append]
  constructor
  · rintro ((h | h) | h)
    · exact Or.inl ((mem_portsOf_ownSock P pa hinv.shapeA).mp h)
    · exact Or.inr ((mem_portsOf_ownSock P pb hinv.shapeB).mp h)
    · exact absurd h hfree
  · rintro (h | h)
    · exact Or.inl (Or.inl ((mem_portsOf_ownSock P pa hinv.shapeA).mpr h))
    · exact Or.inl (Or.inr ((mem_portsOf_ownSock P pb hinv.shapeB).mpr h))

/-- The invariant is symmetric in the two processes. -/
theorem TwoInv_swap (P : Nat) (os0 os : OSState) (pa pb : APC)
    (h : TwoInv P os0 os pa pb) : TwoInv P os0 os pb pa :=
  ⟨h.maxEq, h.nextLe, h.wf,
   h.perm.trans (perm_swap_mid _ _ _),
   h.shapeB, h.shapeA,
   fun x y => h.wonU y x, h.failB, h.failA⟩

/-- One primitive step of the first process preserves the two-process
invariant. -/
theorem TwoInv_step_left (port : Int) (os0 : OSState)
    (h0 : 0 ≤ port) (h1 : port ≤ 65535)
    (hfree : port.toNat ∉ os0.boundPorts)
    (hfd : os0.sockets.length + 2 ≤ os0.maxFDs)
    (os : OSState) (pa pb : APC)
    (hinv : TwoInv port.toNat os0 os pa pb) :
    TwoInv port.toNat os0 (stepAcq port os pa).1 (stepAcq port os pa).2 pb := by
  cases pa with
  | start =>
    have hlen : os.sockets.length < os.maxFDs := by
      have hl := hinv.perm.length_eq
      have h00 : (ownSock port.toNat APC.start).length = 0 := rfl
      rw [List.length_append, List.length_append, h00] at hl
      have hb2 := ownSock_length_le port.toNat pb
      have hm := hinv.maxEq
      omega
    have hc : socketCreate os
        = .ok (os.nextFD, ⟨os.maxFDs, os.nextFD + 1, (os.nextFD, {}) :: os.sockets⟩) := by
      unfold socketCreate; rw [if_pos hlen]
    simp only [stepAcq, hc]
    exact ⟨hinv.maxEq, Nat.le_succ_of_le hinv.nextLe,
      WF_cons_fresh os hinv.wf _, hinv.perm.cons _, trivial, hinv.shapeB,
      fun h => False.elim h, fun h => False.elim h,
      fun h => False.elim (hinv.failB h)⟩
  | created fd =>
    simp only [stepAcq]
    exact ⟨hinv.maxEq, hinv.nextLe,
      WF_map_upd os fd (fun si => { si with reuseaddr := true }) hinv.wf,
      map_upd_perm fd {} (fun si => { si with reuseaddr := true })
        os.sockets (ownSock port.toNat pb ++ os0.sockets) hinv.perm hinv.wf.2,
      trivial, hinv.shapeB, fun h => False.elim h, fun h => False.elim h,
      fun h => False.elim (hinv.failB h)⟩
  | optset fd =>
    have hrange : ¬(port < 0 ∨ 65535 < port) := by omega
    by_cases hmem : port.toNat ∈ os.boundPorts
    · have hb : bindLoopback os fd port = .error .osError := by
        unfold bindLoopback; rw [if_neg hrange, if_pos hmem]
      simp only [stepAcq, hb]
      have hwon : wonState pb :=
        ((twoInv_mem_iff_won port.toNat os0 os (.optset fd) pb hfree hinv).mp
          hmem).resolve_left (fun h => False.elim h)
      exact ⟨hinv.maxEq, hinv.nextLe, hinv.wf, hinv.perm, trivial, hinv.shapeB,
        fun h => False.elim h, fun _ => hwon,
        fun h => False.elim (hinv.failB h)⟩
    · have hb : bindLoopback os fd port
          = .ok ⟨os.maxFDs, os.nextFD,
              os.sockets.map (fun p => if p.1 = fd then
                (p.1, { p.2 with bound := some ("127.0.0.1", port.toNat) }) else p)⟩ := by
        unfold bindLoopback; rw [if_neg hrange, if_neg hmem]
      simp only [stepAcq, hb]
      have hnotwonB : ¬ wonState pb := fun hw =>
        hmem ((twoInv_mem_iff_won port.toNat os0 os (.optset fd) pb hfree hinv).mpr
          (Or.inr hw))
      exact ⟨hinv.maxEq, hinv.nextLe,
        WF_map_upd os fd
          (fun si => { si with bound := some ("127.0.0.1", port.toNat) }) hinv.wf,
        map_upd_perm fd { reuseaddr := true }
          (fun si => { si with bound := some ("127.0.0.1", port.toNat) })
          os.sockets (ownSock port.toNat pb ++ os0.sockets) hinv.perm hinv.wf.2,
        trivial, hinv.shapeB,
        fun _ hwb => hnotwonB hwb,
        fun h => False.elim h,
        fun h => False.elim (hinv.failB h)⟩
  | bound fd =>
    simp only [stepAcq]
    exact ⟨hinv.maxEq, hinv.nextLe,
      WF_map_upd os fd (fun si => { si with backlog := some 1 }) hinv.wf,
      map_upd_perm fd
        { reuseaddr := true, bound := some ("127.0.0.1", port.toNat) }
        (fun si => { si with backlog := some 1 })
        os.sockets (ownSock port.toNat pb ++ os0.sockets) hinv.perm hinv.wf.2,
      trivial, hinv.shapeB,
      fun _ hwb => hinv.wonU trivial hwb,
      fun h => False.elim h,
      fun _ => trivial⟩
  | listening fd =>
    simp only [stepAcq]
    exact ⟨hinv.maxEq, hinv.nextLe, hinv.wf, hinv.perm, trivial, hinv.shapeB,
      fun _ hwb => hinv.wonU trivial hwb,
      fun h => False.elim h,
      fun _ => trivial⟩
  | bindFailed fd =>
    simp only [stepAcq]
    exact ⟨hinv.maxEq, hinv.nextLe, WF_close os fd hinv.wf,
      close_perm fd { reuseaddr := true } os.sockets
        (ownSock port.toNat pb ++ os0.sockets) hinv.perm hinv.wf.2,
      trivial, hinv.shapeB,
      fun h => False.elim h,
      fun _ => hinv.failA trivial,
      fun h => False.elim (hinv.failB h)⟩
  | done r l =>
    simp only [stepAcq]
    exact hinv

/-- The invariant holds after any schedule of interleaved steps. -/
theorem runTwo_inv (port : Int) (os0 : OSState)
    (h0 : 0 ≤ port) (h1 : port ≤ 65535)
    (hfree : port.toNat ∉ os0.boundPorts)
    (hfd : os0.sockets.length + 2 ≤ os0.maxFDs) :
    ∀ (sched : List Bool) (os : OSState) (pa pb : APC),
      TwoInv port.toNat os0 os pa pb →
      TwoInv port.toNat os0 (runTwo port sched (os, pa, pb)).1
        (runTwo port sched (os, pa, pb)).2.1
        (runTwo port sched (os, pa, pb)).2.2 := by
  intro sched
  induction sched with
  | nil => intro os pa pb h; exact h
  | cons b rest ih =>
    intro os pa pb h
    cases b with
    | true =>
      have hst := TwoInv_step_left port os0 h0 h1 hfree hfd os pa pb h
      simpa only [runTwo] using ih (stepAcq port os pa).1 (stepAcq port os pa).2 pb hst
    | false =>
      have hswap := TwoInv_swap _ _ _ _ _ h
      have hst := TwoInv_step_left port os0 h0 h1 hfree hfd os pb pa hswap
      have hst2 := TwoInv_swap _ _ _ _ _ hst
      simpa only [runTwo] using ih (stepAcq port os pb).1 pa (stepAcq port os pb).2 hst2

/-- Under any interleaving of the primitive syscalls of two processes
acquiring the same free port, if both complete, exactly one of them
returned True. -/
theorem runTwo_exactly_one (port : Int) (os0 : OSState)
    (h0 : 0 ≤ port) (h1 : port ≤ 65535)
    (hfree : port.toNat ∉ os0.boundPorts)
    (hfd : os0.sockets.length + 2 ≤ os0.maxFDs)
    (hwf : os0.WF)
    (sched : List Bool) (ra rb : Except PyErr Bool) (la lb : Option FD)
    (hdone : (runTwo port sched (os0, .start, .start)).2
      = (.done ra la, .done rb lb)) :
    (ra = .ok true ∧ rb = .ok false) ∨ (ra = .ok false ∧ rb = .ok true) := by
  have hinit : TwoInv port.toNat os0 os0 .start .start :=
    ⟨rfl, le_refl _, hwf, List.Perm.refl _, trivial, trivial,
     fun h => False.elim h, fun h => False.elim h, fun h => False.elim h⟩
  have hinv := runTwo_inv port os0 h0 h1 hfree hfd sched os0 .start .start hinit
  have ha : (runTwo port sched (os0, .start, .start)).2.1 = .done ra la := by
    rw [hdone]
  have hb2 : (runTwo port sched (os0, .start, .start)).2.2 = .done rb lb := by
    rw [hdone]
  rw [ha, hb2] at hinv
  rcases ra with e | x
  · exact absurd hinv.shapeA (by cases la <;> simp [doneShape])
  · rcases rb with e | y
    · exact absurd hinv.shapeB (by cases lb <;> simp [doneShape])
    · rcases x with _ | _
      · rcases la with _ | fd
        · rcases y with _ | _
          · rcases lb with _ | fd2
            · exact False.elim (hinv.failA trivial)
            · exact absurd hinv.shapeB (by simp [doneShape])
          · rcases lb with _ | fd2
            · exact absurd hinv.shapeB (by simp [doneShape])
            · exact Or.inr ⟨rfl, rfl⟩
        · exact absurd hinv.shapeA (by simp [doneShape])
      · rcases la with _ | fd
        · exact absurd hinv.shapeA (by simp [doneShape])
        · rcases y with _ | _
          · rcases lb with _ | fd2
            · exact Or.inl ⟨rfl, rfl⟩
            · exact absurd hinv.shapeB (by simp [doneShape])
          · rcases lb with _ | fd2
            · exact absurd hinv.shapeB (by simp [doneShape])
            · exact False.elim (hinv.wonU trivial trivial)

/-! ## Claim theorems -/

/-- **C1.** For any free port P, if two independent processes call
`acquire(P)` at overlapping times, exactly one of the calls returns true
and the other returns false.  Overlapping execution is modelled two ways,
both proved here.  First, since the OS kernel serializes the `bind`
syscalls (spec §5), the two possible serialization orders of the whole
calls are proved directly against `acquire_gateway_lock`: the first call
returns true and the second false.  Second, and fully generally, the
calls are decomposed into their primitive syscalls (`stepAcq`, which
refines `acquire_gateway_lock` — see `stepAcq_refines`) and interleaved
under an arbitrary schedule (`runTwo`): whenever both processes complete,
exactly one of them returned true. -/
theorem acquire_mutual_exclusion (port : Int) (psA psB : ProcState) (os : OSState)
    (h0 : 0 ≤ port) (h1 : port ≤ 65535)
    (hfree : port.toNat ∉ os.boundPorts)
    (hfd : os.sockets.length + 2 ≤ os.maxFDs)
    (hwf : os.WF) :
    (((acquire_gateway_lock port psA os).1 = .ok true ∧
      (acquire_gateway_lock port psB
        (acquire_gateway_lock port psA os).2.2).1 = .ok false) ∧
     ((acquire_gateway_lock port psB os).1 = .ok true ∧
      (acquire_gateway_lock port psA
        (acquire_gateway_lock port psB os).2.2).1 = .ok false)) ∧
    (∀ (sched : List Bool) (ra rb : Except PyErr Bool) (la lb : Option FD),
      (runTwo port sched (os, .start, .start)).2 = (.done ra la, .done rb lb) →
      (ra = .ok true ∧ rb = .ok false) ∨ (ra = .ok false ∧ rb = .ok true)) :=
  ⟨⟨acquire_then_busy port psA psB os h0 h1 hfree hfd hwf,
    acquire_then_busy port psB psA os h0 h1 hfree hfd hwf⟩,
   fun sched ra rb la lb hdone =>
     runTwo_exactly_one port os h0 h1 hfree hfd hwf sched ra rb la lb hdone⟩

/-- Witness for C1: two processes acquiring port 48900 on a fresh host. -/
theorem acquire_mutual_exclusion_witness :
    ((((acquire_gateway_lock 48900 ⟨none⟩ freshOS).1 = .ok true ∧
      (acquire_gateway_lock 48900 ⟨none⟩
        (acquire_gateway_lock 48900 ⟨none⟩ freshOS).2.2).1 = .ok false) ∧
     ((acquire_gateway_lock 48900 ⟨none⟩ freshOS).1 = .ok true ∧
      (acquire_gateway_lock 48900 ⟨none⟩
        (acquire_gateway_lock 48900 ⟨none⟩ freshOS).2.2).1 = .ok false)) ∧
    (∀ (sched : List Bool) (ra rb : Except PyErr Bool) (la lb : Option FD),
      (runTwo 48900 sched (freshOS, .start, .start)).2
        = (.done ra la, .done rb lb) →
      (ra = .ok true ∧ rb = .ok false) ∨ (ra = .ok false ∧ rb = .ok true))) :=
  acquire_mutual_exclusion 48900 ⟨none⟩ ⟨none⟩ freshOS (by decide) (by decide)
    (by decide) (by decide) (by decide)

/-- **C2 (counterexample).** The claim "for every integer input port,
acquire never raises" is false on the code: `acquire(-1)` raises
`OverflowError` — `sock.bind` raises it inside the `try:` block, but the
`except` clause catches only `OSError`, so it propagates to the caller. -/
theorem acquire_never_raises_counterexample :
    (acquire_gateway_lock (-1) ⟨none⟩ freshOS).1 = .error .overflowError := rfl

/-- **C2 (amended).** For every in-range port (0..65535), provided socket
creation succeeds (the descriptor table has room), acquire never raises:
it absorbs all OS-level bind errors and reports the outcome solely via its
boolean return value.  (Out-of-range ports make `bind` raise
`OverflowError`, which is not caught; a socket-creation failure raises
`OSError` outside the `try:` block and also propagates.) -/
theorem acquire_no_raise_in_range (port : Int) (ps : ProcState) (os : OSState)
    (h0 : 0 ≤ port) (h1 : port ≤ 65535)
    (hfd : os.sockets.length < os.maxFDs) :
    ∃ b, (acquire_gateway_lock port ps os).1 = .ok b := by
  have hc : socketCreate os
      = .ok (os.nextFD, ⟨os.maxFDs, os.nextFD + 1, (os.nextFD, {}) :: os.sockets⟩) := by
    unfold socketCreate; rw [if_pos hfd]
  rcases bindLoopback_in_range
      (setReuseAddr ⟨os.maxFDs, os.nextFD + 1, (os.nextFD, {}) :: os.sockets⟩ os.nextFD)
      os.nextFD port h0 h1 with ⟨os', hok⟩ | herr
  · exact ⟨true, by unfold acquire_gateway_lock; rw [hc]; simp only [hok]⟩
  · exact ⟨false, by unfold acquire_gateway_lock; rw [hc]; simp only [herr]⟩

/-- Witness for the amended C2 at port 48900 on a fresh host. -/
theorem acquire_no_raise_in_range_witness :
    ∃ b, (acquire_gateway_lock 48900 ⟨none⟩ freshOS).1 = .ok b :=
  acquire_no_raise_in_range 48900 ⟨none⟩ freshOS (by decide) (by decide) (by decide)

/-- **C3.** For every out-of-range port number (e.g. -1 or 70000), acquire
never returns true: the outcome is never `.ok true`, and whenever socket
creation succeeds it is the explicit invalid-argument signal
`OverflowError`. -/
theorem acquire_out_of_range_never_true (port : Int) (ps : ProcState) (os : OSState)
    (hr : port < 0 ∨ 65535 < port) :
    (acquire_gateway_lock port ps os).1 ≠ .ok true ∧
    (os.sockets.length < os.maxFDs →
      (acquire_gateway_lock port ps os).1 = .error .overflowError) := by
  constructor
  · intro h
    by_cases hfd : os.sockets.length < os.maxFDs
    · rw [acquire_fst_out_of_range port ps os hr hfd] at h
      exact absurd h (by simp)
    · rw [acquire_nofd_eq port ps os hfd] at h
      exact absurd h (by simp)
  · intro hfd
    exact acquire_fst_out_of_range port ps os hr hfd

/-- Witness for C3 at port -1 on a fresh host. -/
theorem acquire_out_of_range_never_true_witness :
    (acquire_gateway_lock (-1) ⟨none⟩ freshOS).1 ≠ .ok true ∧
    (freshOS.sockets.length < freshOS.maxFDs →
      (acquire_gateway_lock (-1) ⟨none⟩ freshOS).1 = .error .overflowError) :=
  acquire_out_of_range_never_true (-1) ⟨none⟩ freshOS (by decide)

/-- **C4.** For every in-range port on which the bind succeeds (port free,
descriptor-table room), acquire creates a new stream socket (the fresh
descriptor `os.nextFD` is added to the table), enables address-reuse
before binding (`setReuseAddr` precedes `bindLoopback` in the body of
`acquire_gateway_lock`, and the resulting socket has `reuseaddr = true`),
binds it to `127.0.0.1:port`, puts it into listening state with backlog 1,
stores it as the process-wide `_lock_socket`, and returns true. -/
theorem acquire_success_spec (port : Int) (ps : ProcState) (os : OSState)
    (h0 : 0 ≤ port) (h1 : port ≤ 65535)
    (hfree : port.toNat ∉ os.boundPorts)
    (hfd : os.sockets.length < os.maxFDs)
    (hwf : os.WF) :
    acquire_gateway_lock port ps os =
      (.ok true, ⟨some os.nextFD⟩,
        ⟨os.maxFDs, os.nextFD + 1,
          (os.nextFD,
            { reuseaddr := true, bound := some ("127.0.0.1", port.toNat),
              backlog := some 1 }) :: os.sockets⟩) :=
  acquire_free_eq port ps os h0 h1 hfree hfd hwf

/-- Witness for C4 at port 48900 on a fresh host. -/
theorem acquire_success_spec_witness :
    acquire_gateway_lock 48900 ⟨none⟩ freshOS =
      (.ok true, ⟨some 0⟩,
        ⟨16, 1, [(0, { reuseaddr := true,
                       bound := some ("127.0.0.1", 48900),
                       backlog := some 1 })]⟩) :=
  acquire_success_spec 48900 ⟨none⟩ freshOS (by decide) (by decide) (by decide)
    (by decide) (by decide)

/-- **C5.** `release` never raises (it is a total function of the model
state — closing is unconditionally attempted and always succeeds); if the
process-wide state holds a socket, release closes it (the descriptor is
removed from the host table) and clears the stored reference to `none`;
if no socket is held, release is a no-op. -/
theorem release_spec (ps : ProcState) (os : OSState) :
    (∀ fd, ps.lock_socket = some fd →
      release_gateway_lock ps os = (⟨none⟩, closeSock os fd) ∧
      ∀ p ∈ (closeSock os fd).sockets, p.1 ≠ fd) ∧
    (ps.lock_socket = none → release_gateway_lock ps os = (ps, os)) := by
  constructor
  · intro fd hfd
    refine ⟨by unfold release_gateway_lock; rw [hfd], ?_⟩
    intro p hp
    simp only [closeSock] at hp
    have h2 := (List.mem_filter.mp hp).2
    simpa using h2
  · intro hnone
    unfold release_gateway_lock; rw [hnone]

/-- Witness for C5: releasing the held lock on descriptor 0. -/
theorem release_spec_witness :
    release_gateway_lock ⟨some 0⟩ boundOS = (⟨none⟩, closeSock boundOS 0) :=
  ((release_spec ⟨some 0⟩ boundOS).1 0 rfl).1

/-- **C6.** On every OS-level bind failure (the port is already bound on
the host), acquire closes the partially-created socket immediately — the
descriptor table is restored to exactly its previous contents, so no
descriptor is leaked — and returns false. -/
theorem acquire_bind_failure_spec (port : Int) (ps : ProcState) (os : OSState)
    (h0 : 0 ≤ port) (h1 : port ≤ 65535)
    (hbusy : port.toNat ∈ os.boundPorts)
    (hfd : os.sockets.length < os.maxFDs)
    (hwf : os.WF) :
    acquire_gateway_lock port ps os =
      (.ok false, ps, ⟨os.maxFDs, os.nextFD + 1, os.sockets⟩) :=
  acquire_busy_eq port ps os h0 h1 hbusy hfd hwf

/-- Witness for C6: acquiring port 48900 while another socket holds it. -/
theorem acquire_bind_failure_spec_witness :
    acquire_gateway_lock 48900 ⟨none⟩ boundOS =
      (.ok false, ⟨none⟩,
        ⟨16, 2, [(0, { reuseaddr := true,
                       bound := some ("127.0.0.1", 48900),
                       backlog := some 1 })]⟩) :=
  acquire_bind_failure_spec 48900 ⟨none⟩ boundOS (by decide) (by decide)
    (by decide) (by decide) (by decide)

/-- **C7.** Every call of acquire that returns false leaves the
process-wide lock-handle state unchanged; in particular, if the state was
Unlocked (no socket held) before the call, it is still Unlocked after. -/
theorem acquire_false_frame (port : Int) (ps : ProcState) (os : OSState)
    (h : (acquire_gateway_lock port ps os).1 = .ok false) :
    (acquire_gateway_lock port ps os).2.1 = ps := by
  cases hc : socketCreate os with
  | error e =>
    have heq : acquire_gateway_lock port ps os = (.error e, ps, os) := by
      unfold acquire_gateway_lock; rw [hc]
    rw [heq]
  | ok v =>
    obtain ⟨sock, os1⟩ := v
    cases hb : bindLoopback (setReuseAddr os1 sock) sock port with
    | ok os3 =>
      have heq : acquire_gateway_lock port ps os
          = (.ok true, ⟨some sock⟩, listenSock os3 sock 1) := by
        unfold acquire_gateway_lock; rw [hc]; simp only [hb]
      rw [heq] at h
      exact absurd h (by simp)
    | error e =>
      cases e with
      | osError =>
        have heq : acquire_gateway_lock port ps os
            = (.ok false, ps, closeSock (setReuseAddr os1 sock) sock) := by
          unfold acquire_gateway_lock; rw [hc]; simp only [hb]
        rw [heq]
      | overflowError =>
        have heq : acquire_gateway_lock port ps os
            = (.error .overflowError, ps, setReuseAddr os1 sock) := by
          unfold acquire_gateway_lock; rw [hc]; simp only [hb]
        rw [heq] at h
        exact absurd h (by simp)

/-- Witness for C7: a failing acquire of the already-bound port 48900
leaves the Unlocked state Unlocked. -/
theorem acquire_false_frame_witness :
    (acquire_gateway_lock 48900 ⟨none⟩ boundOS).2.1 = ⟨none⟩ :=
  acquire_false_frame 48900 ⟨none⟩ boundOS rfl

/-- **C8.** Invariant preserved by every operation: the process-wide state
holds at most one Lock Handle at any time (the `Option` in `ProcState`),
and when a handle is present it denotes an actively held OS-level
exclusive bind to the configured address and port (`LockInv`); both
acquire — with any port, along every path — and release preserve `LockInv`
together with well-formedness of the descriptor table. -/
theorem lock_invariant_preserved (port : Int) (ps : ProcState) (os : OSState)
    (hwf : os.WF) (hinv : LockInv ps os) :
    ((acquire_gateway_lock port ps os).2.2.WF ∧
      LockInv (acquire_gateway_lock port ps os).2.1
        (acquire_gateway_lock port ps os).2.2) ∧
    ((release_gateway_lock ps os).2.WF ∧
      LockInv (release_gateway_lock ps os).1 (release_gateway_lock ps os).2) := by
  constructor
  · by_cases hfd : os.sockets.length < os.maxFDs
    · by_cases hr : port < 0 ∨ 65535 < port
      · rw [acquire_overflow_eq port ps os hr hfd hwf]
        refine ⟨WF_cons_fresh os hwf _, ?_⟩
        intro fd h
        obtain ⟨si, hmem, p, hbound, hback, hexcl⟩ := hinv fd h
        refine ⟨si, List.mem_cons_of_mem _ hmem, p, hbound, hback, ?_⟩
        intro qq hq hqfd
        rcases List.mem_cons.mp hq with hh | hq'
        · subst hh; simp
        · exact hexcl qq hq' hqfd
      · push_neg at hr
        by_cases hbusy : port.toNat ∈ os.boundPorts
        · rw [acquire_busy_eq port ps os hr.1 hr.2 hbusy hfd hwf]
          exact ⟨WF_bump os hwf, fun fd h => hinv fd h⟩
        · rw [acquire_free_eq port ps os hr.1 hr.2 hbusy hfd hwf]
          refine ⟨WF_cons_fresh os hwf _, ?_⟩
          intro fd h
          have hfd' : os.nextFD = fd := Option.some.inj h
          subst hfd'
          refine ⟨_, List.mem_cons_self _ _, port.toNat, rfl, rfl, ?_⟩
          intro qq hq hqfd
          rcases List.mem_cons.mp hq with hh | hq'
          · subst hh; exact absurd rfl hqfd
          · intro hqb
            exact hbusy (mem_boundPorts os qq _ _ hq' hqb)
    · rw [acquire_nofd_eq port ps os hfd]
      exact ⟨hwf, hinv⟩
  · cases hs : ps.lock_socket with
    | none =>
      have heq : release_gateway_lock ps os = (ps, os) := by
        unfold release_gateway_lock; rw [hs]
      rw [heq]; exact ⟨hwf, hinv⟩
    | some fd =>
      have heq : release_gateway_lock ps os = (⟨none⟩, closeSock os fd) := by
        unfold release_gateway_lock; rw [hs]
      rw [heq]
      exact ⟨WF_close os fd hwf, fun fd' h => nomatch h⟩

/-- Witness for C8: acquire of port 48900 and release, from the Unlocked
state on a fresh host. -/
theorem lock_invariant_preserved_witness :
    (((acquire_gateway_lock 48900 ⟨none⟩ freshOS).2.2.WF ∧
      LockInv (acquire_gateway_lock 48900 ⟨none⟩ freshOS).2.1
        (acquire_gateway_lock 48900 ⟨none⟩ freshOS).2.2) ∧
     ((release_gateway_lock ⟨none⟩ freshOS).2.WF ∧
      LockInv (release_gateway_lock ⟨none⟩ freshOS).1
        (release_gateway_lock ⟨none⟩ freshOS).2)) :=
  lock_invariant_preserved 48900 ⟨none⟩ freshOS (by decide) (fun fd h => nomatch h)

/-- **C9.** If acquire is called a second time, without an intervening
release, while the process already holds the lock, and the second bind
succeeds, the first socket is never closed by acquire: it remains in the
host descriptor table with unchanged kernel state, and the stored
reference is only overwritten with the new (distinct) socket — a
descriptor leak. -/
theorem double_acquire_leaks_first_socket (q : Int) (fd0 : FD) (si0 : SockInfo)
    (os : OSState) (hwf : os.WF) (hmem : (fd0, si0) ∈ os.sockets)
    (hsucc : (acquire_gateway_lock q ⟨some fd0⟩ os).1 = .ok true) :
    (acquire_gateway_lock q ⟨some fd0⟩ os).2.1 = ⟨some os.nextFD⟩ ∧
    os.nextFD ≠ fd0 ∧
    (fd0, si0) ∈ (acquire_gateway_lock q ⟨some fd0⟩ os).2.2.sockets := by
  obtain ⟨h0, h1, hfree, hfd⟩ := acquire_true_elim q ⟨some fd0⟩ os hwf hsucc
  rw [acquire_free_eq q ⟨some fd0⟩ os h0 h1 hfree hfd hwf]
  have h2 : fd0 < os.nextFD := hwf.1 _ hmem
  exact ⟨rfl, Nat.ne_of_gt h2, List.mem_cons_of_mem _ hmem⟩

/-- Witness for C9: while holding descriptor 0 (bound to 48900), a second
acquire of the free port 48901 succeeds, overwrites the stored reference
with descriptor 1, and leaves descriptor 0 open in the table. -/
theorem double_acquire_leaks_first_socket_witness :
    (acquire_gateway_lock 48901 ⟨some 0⟩ boundOS).2.1 = ⟨some 1⟩ ∧
    (1 : FD) ≠ 0 ∧
    ((0 : FD), ({ reuseaddr := true, bound := some ("127.0.0.1", 48900),
                  backlog := some 1 } : SockInfo))
      ∈ (acquire_gateway_lock 48901 ⟨some 0⟩ boundOS).2.2.sockets :=
  double_acquire_leaks_first_socket 48901 0
    { reuseaddr := true, bound := some ("127.0.0.1", 48900), backlog := some 1 }
    boundOS (by decide) (by decide) rfl

/-- **C10.** `release` is idempotent: from any process-wide state and host
state, calling release twice in succession leaves both exactly as after
calling it once — after the first call the stored reference is `none`, so
the second call takes the no-op branch. -/
theorem release_idempotent (ps : ProcState) (os : OSState) :
    release_gateway_lock (release_gateway_lock ps os).1
        (release_gateway_lock ps os).2
      = release_gateway_lock ps os := by
  cases hs : ps.lock_socket with
  | none =>
    have heq : release_gateway_lock ps os = (ps, os) := by
      unfold release_gateway_lock; rw [hs]
    rw [heq]
    exact heq
  | some fd =>
    have heq : release_gateway_lock ps os = (⟨none⟩, closeSock os fd) := by
      unfold release_gateway_lock; rw [hs]
    rw [heq]
    rfl

end Swayambhu
